import Mathlib

/-!
# Verification of FW_PROCESS_OBJECTS

A shallow embedding of the firewall network-object reconciliation and
enrichment script `FW_PROCESS_OBJECTS.py`, together with theorems about
its behaviour.

The script works on pandas data frames loaded from CSV snapshots.  We model
it at two levels:

* a typed level, where a data-frame row is a `Row` structure whose cells are
  `Option String` (with `none` playing the role of pandas `NaN`), used for
  the functional behaviour of `calculate_deltas`, `process_dns`,
  `calculate_subnets` and `ping_objects`;
* a frame level (`Frame`), where column presence is explicit, used for the
  error behaviour of `calculate_deltas` (pandas `KeyError` on a missing
  column, `TypeError` on string concatenation with `NaN`).

Python string primitives (`str.split`, `int(...)`, membership tests) are
modelled on `List Char`.  The standard-library call
`ipaddress.ip_network(addr, strict=False)` is modelled for IPv4 inputs
(dotted quad, optional `/prefix` with a decimal prefix length or a dotted
netmask/hostmask); inputs the library would accept only as IPv6 make the
surrounding octet conversion fail in the script, so both the script and the
model end in the same sentinel path for them.
-/

set_option autoImplicit false

namespace FW

/-! ## Python string primitives -/

/-- Python's `c in s` membership test for a single character. -/
abbrev hasChar (s : String) (c : Char) : Prop := c ∈ s.data

/-- Python's `str.split(sep)` for a one-character separator: splits at every
occurrence and keeps empty parts (`"".split(sep) == ['']`). -/
def pySplit (sep : Char) : List Char → List (List Char)
  | [] => [[]]
  | c :: rest =>
    if c = sep then [] :: pySplit sep rest
    else
      match pySplit sep rest with
      | t :: ts => (c :: t) :: ts
      | [] => [[c]]

/-- Numeric value of a digit list (most significant first). -/
def digitsToNat (cs : List Char) : Nat :=
  cs.foldl (fun acc c => 10 * acc + (c.toNat - 48)) 0

/-- Characters Python's `int(str)` strips from both ends. -/
def isPySpace (c : Char) : Bool :=
  c = ' ' || c = '\t' || c = '\n' || c = '\r' || c = Char.ofNat 11 || c = Char.ofNat 12

/-- Digit run accepted by Python's `int(...)` after the optional sign:
digits, with single underscores allowed between digits. -/
def pyDigits : Nat → List Char → Option Nat
  | acc, [] => some acc
  | acc, c :: cs =>
    if c.isDigit then pyDigits (10 * acc + (c.toNat - 48)) cs
    else if c = '_' then
      match cs with
      | d :: _ => if d.isDigit then pyDigits acc cs else none
      | [] => none
    else none

/-- Python's `int(str)`: optional surrounding whitespace, optional sign, then
a digit run (underscores between digits allowed).  `none` models
`ValueError`. -/
def pyInt (cs : List Char) : Option Int :=
  let t := ((cs.dropWhile isPySpace).reverse.dropWhile isPySpace).reverse
  match t with
  | '+' :: r =>
    match r with
    | d :: _ => if d.isDigit then (pyDigits 0 r).map Int.ofNat else none
    | [] => none
  | '-' :: r =>
    match r with
    | d :: _ => if d.isDigit then (pyDigits 0 r).map (fun n => -(Int.ofNat n)) else none
    | [] => none
  | d :: r =>
    if d.isDigit then (pyDigits 0 (d :: r)).map Int.ofNat else none
  | [] => none

/-! ## The typed row model

One CSV row, with the columns the script reads or writes.  Cells are
`Option String`; `none` models an empty CSV cell (pandas `NaN`).  The
`netAddress` and `fwNetEnv` cells are taken as genuine strings, matching
the script's assumption when it concatenates them into `unique_key`.
The eight subnet-bound columns are modelled together as `subnetBounds`,
whose cells are integers or the `"N/A"` sentinel. -/

/-- A value stored in one of the eight `netIPOct*` columns: an integer, or
the `'N/A'` sentinel written on classification failure. -/
inductive BCell where
  | int : Int → BCell
  | na : BCell
deriving DecidableEq, Repr

structure Row where
  netAddress : String
  fwNetEnv : String
  fwNetDateAdded : Option String
  fwNetDropped : Option String
  netUpdDate : Option String
  fwNetHostName : Option String
  fwNetReverseLookup : Option String
  nslookUpMatch : Option String
  subnetBounds : List BCell
  fwNetPingable : Option String
  unique_key : String
deriving DecidableEq, Repr

/-- A default row (all cells empty), used with `List.getD`. -/
def dRow : Row :=
  { netAddress := "", fwNetEnv := "", fwNetDateAdded := none, fwNetDropped := none,
    netUpdDate := none, fwNetHostName := none, fwNetReverseLookup := none,
    nslookUpMatch := none, subnetBounds := [], fwNetPingable := none, unique_key := "" }

instance : Inhabited Row := ⟨dRow⟩

/-! ## calculate_deltas (typed level)

`FW_PROCESS_OBJECTS.py`, lines 21-70. -/

/-- Line 34/35: `df['unique_key'] = df[netAddress] + '|' + df[fwNetEnv]`,
the value written for one row. -/
def mkKey (r : Row) : String := r.netAddress ++ "|" ++ r.fwNetEnv

/-- Line 34/35: store the composite key in the `unique_key` column. -/
def withKey (r : Row) : Row := { r with unique_key := mkKey r }

/-- Line 47: `df_prev.loc[df_prev['unique_key'].isin(removed_keys), 'fwNetDropped'] = 'YES'`,
where `removed_keys = prev_keys - curr_keys`, acting on one row. -/
def markRemoved (prev_keys curr_keys : List String) (r : Row) : Row :=
  if r.unique_key ∈ prev_keys ∧ r.unique_key ∉ curr_keys then
    { r with fwNetDropped := some "YES" }
  else r

/-- Lines 51-52: a newly added object gets `fwNetDropped = 'N/A'` and
`fwNetDateAdded = today`. -/
def initNew (today : String) (r : Row) : Row :=
  { r with fwNetDropped := some "N/A", fwNetDateAdded := some today }

/-- Lines 59-62: `netUpdDate` is kept for `fwNetDropped == 'YES'` rows and
set to today's date for every other row. -/
def updActive (today : String) (r : Row) : Row :=
  { r with netUpdDate := if r.fwNetDropped = some "YES" then r.netUpdDate else some today }

/-- Line 65: `df_combined['fwNetDropped'].fillna('N/A')` on one row. -/
def fillnaDropped (r : Row) : Row :=
  { r with fwNetDropped := some (r.fwNetDropped.getD "N/A") }

/-- Lines 21-70, on already-loaded snapshots: build the composite keys,
compute the added and removed key sets, mark removed previous rows,
append the new current rows, refresh `netUpdDate` on active rows and
normalise missing `fwNetDropped` cells. -/
def calculate_deltas (prev curr : List Row) (today : String) : List Row :=
  let df_prev := prev.map withKey
  let df_curr := curr.map withKey
  let prev_keys := df_prev.map (fun r => r.unique_key)
  let curr_keys := df_curr.map (fun r => r.unique_key)
  let df_prev2 := df_prev.map (markRemoved prev_keys curr_keys)
  let new_objects :=
    (df_curr.filter (fun r => decide (r.unique_key ∈ curr_keys ∧ r.unique_key ∉ prev_keys))).map
      (initNew today)
  let df_combined := df_prev2 ++ new_objects
  (df_combined.map (updActive today)).map fillnaDropped

@[simp] theorem withKey_unique_key (r : Row) : (withKey r).unique_key = mkKey r := rfl

@[simp] theorem withKey_mkKey (r : Row) : mkKey (withKey r) = mkKey r := rfl

theorem markRemoved_mkKey (pk ck : List String) (r : Row) :
    mkKey (markRemoved pk ck r) = mkKey r := by
  unfold markRemoved; split <;> rfl

theorem markRemoved_unique_key (pk ck : List String) (r : Row) :
    (markRemoved pk ck r).unique_key = r.unique_key := by
  unfold markRemoved; split <;> rfl

@[simp] theorem initNew_mkKey (t : String) (r : Row) : mkKey (initNew t r) = mkKey r := rfl

@[simp] theorem updActive_mkKey (t : String) (r : Row) : mkKey (updActive t r) = mkKey r := rfl

@[simp] theorem fillnaDropped_mkKey (r : Row) : mkKey (fillnaDropped r) = mkKey r := rfl

/-- The whole of `calculate_deltas`, written as a transformation of the
previous rows followed by the filtered, transformed current rows. -/
theorem calculate_deltas_eq (prev curr : List Row) (today : String) :
    calculate_deltas prev curr today =
      prev.map (fun r =>
        fillnaDropped (updActive today
          (markRemoved (prev.map mkKey) (curr.map mkKey) (withKey r)))) ++
      (curr.filter (fun r =>
        decide (mkKey r ∈ curr.map mkKey ∧ mkKey r ∉ prev.map mkKey))).map (fun r =>
          fillnaDropped (updActive today (initNew today (withKey r)))) := by
  unfold calculate_deltas
  simp only [List.filter_map, List.map_map, List.map_append, Function.comp_def,
    withKey_unique_key]

/-! Field bookkeeping for the per-row steps of `calculate_deltas`. -/

@[simp] theorem withKey_netAddress (r : Row) : (withKey r).netAddress = r.netAddress := rfl
@[simp] theorem withKey_fwNetEnv (r : Row) : (withKey r).fwNetEnv = r.fwNetEnv := rfl
@[simp] theorem withKey_fwNetDropped (r : Row) : (withKey r).fwNetDropped = r.fwNetDropped := rfl
@[simp] theorem withKey_fwNetDateAdded (r : Row) :
    (withKey r).fwNetDateAdded = r.fwNetDateAdded := rfl
@[simp] theorem withKey_netUpdDate (r : Row) : (withKey r).netUpdDate = r.netUpdDate := rfl

theorem markRemoved_of_mem (pk ck : List String) (r : Row)
    (h : r.unique_key ∈ pk ∧ r.unique_key ∉ ck) :
    markRemoved pk ck r = { r with fwNetDropped := some "YES" } := by
  unfold markRemoved; rw [if_pos h]

theorem markRemoved_of_not_mem (pk ck : List String) (r : Row)
    (h : ¬(r.unique_key ∈ pk ∧ r.unique_key ∉ ck)) :
    markRemoved pk ck r = r := by
  unfold markRemoved; rw [if_neg h]

@[simp] theorem markRemoved_netAddress (pk ck : List String) (r : Row) :
    (markRemoved pk ck r).netAddress = r.netAddress := by
  unfold markRemoved; split <;> rfl
@[simp] theorem markRemoved_fwNetEnv (pk ck : List String) (r : Row) :
    (markRemoved pk ck r).fwNetEnv = r.fwNetEnv := by
  unfold markRemoved; split <;> rfl
@[simp] theorem markRemoved_netUpdDate (pk ck : List String) (r : Row) :
    (markRemoved pk ck r).netUpdDate = r.netUpdDate := by
  unfold markRemoved; split <;> rfl
@[simp] theorem markRemoved_fwNetDateAdded (pk ck : List String) (r : Row) :
    (markRemoved pk ck r).fwNetDateAdded = r.fwNetDateAdded := by
  unfold markRemoved; split <;> rfl

@[simp] theorem initNew_netAddress (t : String) (r : Row) :
    (initNew t r).netAddress = r.netAddress := rfl
@[simp] theorem initNew_fwNetEnv (t : String) (r : Row) :
    (initNew t r).fwNetEnv = r.fwNetEnv := rfl
@[simp] theorem initNew_fwNetDropped (t : String) (r : Row) :
    (initNew t r).fwNetDropped = some "N/A" := rfl
@[simp] theorem initNew_fwNetDateAdded (t : String) (r : Row) :
    (initNew t r).fwNetDateAdded = some t := rfl
@[simp] theorem initNew_netUpdDate (t : String) (r : Row) :
    (initNew t r).netUpdDate = r.netUpdDate := rfl
@[simp] theorem initNew_unique_key (t : String) (r : Row) :
    (initNew t r).unique_key = r.unique_key := rfl

@[simp] theorem updActive_netAddress (t : String) (r : Row) :
    (updActive t r).netAddress = r.netAddress := rfl
@[simp] theorem updActive_fwNetEnv (t : String) (r : Row) :
    (updActive t r).fwNetEnv = r.fwNetEnv := rfl
@[simp] theorem updActive_fwNetDropped (t : String) (r : Row) :
    (updActive t r).fwNetDropped = r.fwNetDropped := rfl
@[simp] theorem updActive_fwNetDateAdded (t : String) (r : Row) :
    (updActive t r).fwNetDateAdded = r.fwNetDateAdded := rfl
@[simp] theorem updActive_unique_key (t : String) (r : Row) :
    (updActive t r).unique_key = r.unique_key := rfl
theorem updActive_netUpdDate (t : String) (r : Row) :
    (updActive t r).netUpdDate =
      if r.fwNetDropped = some "YES" then r.netUpdDate else some t := rfl

@[simp] theorem fillnaDropped_netAddress (r : Row) :
    (fillnaDropped r).netAddress = r.netAddress := rfl
@[simp] theorem fillnaDropped_fwNetEnv (r : Row) :
    (fillnaDropped r).fwNetEnv = r.fwNetEnv := rfl
@[simp] theorem fillnaDropped_netUpdDate (r : Row) :
    (fillnaDropped r).netUpdDate = r.netUpdDate := rfl
@[simp] theorem fillnaDropped_fwNetDateAdded (r : Row) :
    (fillnaDropped r).fwNetDateAdded = r.fwNetDateAdded := rfl
@[simp] theorem fillnaDropped_unique_key (r : Row) :
    (fillnaDropped r).unique_key = r.unique_key := rfl
theorem fillnaDropped_fwNetDropped (r : Row) :
    (fillnaDropped r).fwNetDropped = some (r.fwNetDropped.getD "N/A") := rfl

/-- The normalised dropped cell reads back as `"YES"` exactly when the cell
already was `"YES"` (an empty cell normalises to `"N/A"`). -/
theorem fillnaDropped_eq_yes_iff (r : Row) :
    (fillnaDropped r).fwNetDropped = some "YES" ↔ r.fwNetDropped = some "YES" := by
  rw [fillnaDropped_fwNetDropped]
  cases h : r.fwNetDropped with
  | none => simp
  | some s => simp

/-! `List.getD` index bookkeeping. -/

theorem getD_append_lt {α : Type} (l l' : List α) (d : α) (i : Nat) (h : i < l.length) :
    (l ++ l').getD i d = l.getD i d := by
  rw [List.getD_eq_getElem?_getD, List.getD_eq_getElem?_getD, List.getElem?_append, if_pos h]

theorem getD_append_ge {α : Type} (l l' : List α) (d : α) (i : Nat) (h : l.length ≤ i) :
    (l ++ l').getD i d = l'.getD (i - l.length) d := by
  rw [List.getD_eq_getElem?_getD, List.getD_eq_getElem?_getD, List.getElem?_append,
    if_neg (by omega)]

theorem getD_map_lt {α β : Type} (f : α → β) (l : List α) (d : β) (e : α) (i : Nat)
    (h : i < l.length) :
    (l.map f).getD i d = f (l.getD i e) := by
  rw [List.getD_eq_getElem?_getD, List.getD_eq_getElem?_getD, List.getElem?_map,
    List.getElem?_eq_getElem h]
  rfl

/-- **C1** For every pair of previous/current snapshots, the composite key
set of `calculate_deltas`' output is the union of the two input key sets;
every output row whose key was removed (in previous, not in current)
carries `fwNetDropped = "YES"`; every output row whose key was added (in
current, not in previous) carries `fwNetDropped = "N/A"` and today's
`fwNetDateAdded`; and the output lists the previous rows first, in order,
followed by the newly added current rows, in order. -/
theorem C1_reconcile_keys (prev curr : List Row) (today : String) :
    (∀ k, (∃ r ∈ calculate_deltas prev curr today, mkKey r = k) ↔
        (k ∈ prev.map mkKey ∨ k ∈ curr.map mkKey))
  ∧ (∀ r ∈ calculate_deltas prev curr today,
      mkKey r ∈ prev.map mkKey → mkKey r ∉ curr.map mkKey → r.fwNetDropped = some "YES")
  ∧ (∀ r ∈ calculate_deltas prev curr today,
      mkKey r ∈ curr.map mkKey → mkKey r ∉ prev.map mkKey →
        r.fwNetDropped = some "N/A" ∧ r.fwNetDateAdded = some today)
  ∧ (calculate_deltas prev curr today).map (fun r => (r.netAddress, r.fwNetEnv)) =
      prev.map (fun r => (r.netAddress, r.fwNetEnv)) ++
      (curr.filter (fun r =>
        decide (mkKey r ∈ curr.map mkKey ∧ mkKey r ∉ prev.map mkKey))).map
        (fun r => (r.netAddress, r.fwNetEnv)) := by
  rw [calculate_deltas_eq]
  refine ⟨?_, ?_, ?_, ?_⟩
  · intro k
    constructor
    · rintro ⟨r, hr, rfl⟩
      rcases List.mem_append.mp hr with h | h
      · rcases List.mem_map.mp h with ⟨a, ha, rfl⟩
        left
        simpa [markRemoved_mkKey] using List.mem_map_of_mem mkKey ha
      · rcases List.mem_map.mp h with ⟨a, ha, rfl⟩
        right
        simpa using List.mem_map_of_mem mkKey (List.mem_of_mem_filter ha)
    · intro h
      by_cases hp : k ∈ prev.map mkKey
      · rcases List.mem_map.mp hp with ⟨a, ha, rfl⟩
        exact ⟨_, List.mem_append_left _ (List.mem_map_of_mem _ ha),
          by simp [markRemoved_mkKey]⟩
      · have hc : k ∈ curr.map mkKey := h.resolve_left hp
        rcases List.mem_map.mp hc with ⟨a, ha, hak⟩
        subst hak
        refine ⟨fillnaDropped (updActive today (initNew today (withKey a))),
          List.mem_append_right _ (List.mem_map_of_mem _
            (List.mem_filter.mpr ⟨ha, ?_⟩)), by simp⟩
        simp only [decide_eq_true_eq]
        exact ⟨hc, hp⟩
  · intro r hr hin hout
    rcases List.mem_append.mp hr with h | h
    · rcases List.mem_map.mp h with ⟨a, ha, rfl⟩
      simp only [fillnaDropped_mkKey, updActive_mkKey, markRemoved_mkKey, withKey_mkKey]
        at hin hout
      have hcond : (withKey a).unique_key ∈ prev.map mkKey ∧
          (withKey a).unique_key ∉ curr.map mkKey := by
        rw [withKey_unique_key]; exact ⟨hin, hout⟩
      rw [markRemoved_of_mem _ _ _ hcond, fillnaDropped_fwNetDropped, updActive_fwNetDropped]
      rfl
    · rcases List.mem_map.mp h with ⟨a, ha, rfl⟩
      have hpred := (List.mem_filter.mp ha).2
      simp only [decide_eq_true_eq] at hpred
      simp only [fillnaDropped_mkKey, updActive_mkKey, initNew_mkKey, withKey_mkKey] at hout
      exact absurd hpred.1 hout
  · intro r hr hin hnp
    rcases List.mem_append.mp hr with h | h
    · rcases List.mem_map.mp h with ⟨a, ha, rfl⟩
      simp only [fillnaDropped_mkKey, updActive_mkKey, markRemoved_mkKey, withKey_mkKey] at hnp
      exact absurd (List.mem_map_of_mem mkKey ha) hnp
    · rcases List.mem_map.mp h with ⟨a, ha, rfl⟩
      constructor
      · rw [fillnaDropped_fwNetDropped, updActive_fwNetDropped, initNew_fwNetDropped]
        rfl
      · rw [fillnaDropped_fwNetDateAdded, updActive_fwNetDateAdded, initNew_fwNetDateAdded]
  · rw [List.map_append, List.map_map, List.map_map]
    congr 1
    all_goals
      apply List.map_congr_left
      intro a _
      simp [Function.comp_def]

/-- A previous-snapshot row used to instantiate the reconciliation theorems. -/
def wRowA : Row :=
  { dRow with netAddress := "1.2.3.4", fwNetEnv := "prod", netUpdDate := some "2024-05-05" }

/-- The reconciled form of `wRowA` when it disappears from the current
snapshot. -/
def wOutA : Row := { wRowA with unique_key := "1.2.3.4|prod", fwNetDropped := some "YES" }

/-- Witness for `C1_reconcile_keys`: with previous `[wRowA]` and an empty
current snapshot, the removed row appears in the output with
`fwNetDropped = "YES"`. -/
theorem C1_reconcile_keys_witness :
    wOutA ∈ calculate_deltas [wRowA] [] "2026-02-03" ∧ wOutA.fwNetDropped = some "YES" :=
  ⟨by decide, (C1_reconcile_keys [wRowA] [] "2026-02-03").2.1 wOutA (by decide)
    (by decide) (by decide)⟩

/-- **C2** In the reconciled output, a row marked `fwNetDropped = "YES"`
keeps exactly the `netUpdDate` it had in the previous snapshot, and every
row not marked `"YES"` has `netUpdDate` equal to today's date. -/
theorem C2_updatedDate (prev curr : List Row) (today : String) :
    (∀ i, i < prev.length →
      ((((calculate_deltas prev curr today).getD i dRow).fwNetDropped = some "YES" →
        ((calculate_deltas prev curr today).getD i dRow).netUpdDate =
          (prev.getD i dRow).netUpdDate)
      ∧ (((calculate_deltas prev curr today).getD i dRow).fwNetDropped ≠ some "YES" →
        ((calculate_deltas prev curr today).getD i dRow).netUpdDate = some today)))
  ∧ (∀ i, prev.length ≤ i → i < (calculate_deltas prev curr today).length →
      ((calculate_deltas prev curr today).getD i dRow).fwNetDropped ≠ some "YES" ∧
      ((calculate_deltas prev curr today).getD i dRow).netUpdDate = some today) := by
  rw [calculate_deltas_eq]
  constructor
  · intro i hi
    rw [getD_append_lt _ _ _ _ (by simpa using hi), getD_map_lt _ _ _ dRow _ hi]
    constructor
    · intro hyes
      have h1 : (markRemoved (prev.map mkKey) (curr.map mkKey)
          (withKey (prev.getD i dRow))).fwNetDropped = some "YES" := by
        have := (fillnaDropped_eq_yes_iff _).mp hyes
        rwa [updActive_fwNetDropped] at this
      rw [fillnaDropped_netUpdDate, updActive_netUpdDate, if_pos h1, markRemoved_netUpdDate,
        withKey_netUpdDate]
    · intro hne
      have h1 : (markRemoved (prev.map mkKey) (curr.map mkKey)
          (withKey (prev.getD i dRow))).fwNetDropped ≠ some "YES" := by
        intro h
        exact hne ((fillnaDropped_eq_yes_iff _).mpr (by rwa [updActive_fwNetDropped]))
      rw [fillnaDropped_netUpdDate, updActive_netUpdDate, if_neg h1]
  · intro i hge hlt
    rw [List.length_append, List.length_map] at hlt
    have hge' : (prev.map (fun r =>
        fillnaDropped (updActive today
          (markRemoved (prev.map mkKey) (curr.map mkKey) (withKey r))))).length ≤ i := by
      simpa using hge
    rw [getD_append_ge _ _ _ _ hge']
    have hlt2 : i - prev.length <
        ((curr.filter (fun r =>
          decide (mkKey r ∈ curr.map mkKey ∧ mkKey r ∉ prev.map mkKey)))).length := by
      simp only [List.length_map] at hlt ⊢
      omega
    rw [List.length_map]
    rw [getD_map_lt _ _ _ dRow _ hlt2]
    constructor
    · rw [fillnaDropped_fwNetDropped, updActive_fwNetDropped, initNew_fwNetDropped]
      simp
    · rw [fillnaDropped_netUpdDate, updActive_netUpdDate, if_neg (by simp)]

/-- Witness for `C2_updatedDate`: the dropped row of
`C1_reconcile_keys_witness`' scenario keeps its input `netUpdDate`. -/
theorem C2_updatedDate_witness :
    ((calculate_deltas [wRowA] [] "2026-02-03").getD 0 dRow).netUpdDate =
      some "2024-05-05" :=
  (((C2_updatedDate [wRowA] [] "2026-02-03").1 0 (by decide)).1 (by decide)).trans (by decide)

/-- **C3 (amended)** Reconciling a snapshot with itself adds no rows and
removes none: the output is the input row-for-row, with the composite key
written, `netUpdDate` advanced to today exactly on the rows not already
marked `fwNetDropped = "YES"`, and an absent `fwNetDropped` cell
normalised to `"N/A"`.  (Rows already marked `"YES"` keep their value and
their `netUpdDate`.) -/
theorem C3_self_reconcile_amended (S : List Row) (today : String) :
    calculate_deltas S S today =
      S.map (fun r => fillnaDropped (updActive today (withKey r))) := by
  rw [calculate_deltas_eq]
  have hfil : S.filter (fun r =>
      decide (mkKey r ∈ S.map mkKey ∧ mkKey r ∉ S.map mkKey)) = [] := by
    rw [List.filter_eq_nil_iff]
    intro a _
    simp only [decide_eq_true_eq]
    exact fun h => h.2 h.1
  rw [hfil]
  simp only [List.map_nil, List.append_nil]
  apply List.map_congr_left
  intro a _
  rw [markRemoved_of_not_mem _ _ _ (fun h => h.2 h.1)]

/-- A self-reconciliation input row already marked dropped, refuting the
claim that every output row of a self-reconciliation is `"N/A"`/today. -/
def cRow3 : Row :=
  { dRow with
    netAddress := "1.2.3.4"
    fwNetEnv := "prod"
    fwNetDropped := some "YES"
    netUpdDate := some "2020-01-01" }

/-- Counterexample to **C3** as stated: reconciling the one-row snapshot
`[cRow3]` (whose row is already marked `fwNetDropped = "YES"`) with itself
yields a row with `fwNetDropped = "YES"` (not `"N/A"`) and an unchanged
`netUpdDate` (not today's date). -/
theorem C3_self_reconcile_cex :
    ¬ (∀ r ∈ calculate_deltas [cRow3] [cRow3] "2026-02-03",
        r.fwNetDropped = some "N/A" ∧ r.netUpdDate = some "2026-02-03") := by
  decide

/-! ## The address classifier (`calculate_ranges`, lines 137-150)

`calculate_ranges` splits a hyphenated range on `-` and `int`-parses each
side's dot-separated pieces; otherwise it hands the address to
`ipaddress.ip_network(addr, strict=False)` and converts the network and
broadcast addresses back to octets.  Any exception is caught and replaced
by eight `'N/A'` sentinels. -/

/-- One octet of `ipaddress`' dotted-quad parser (`_parse_octet`): ASCII
digits only, at most 3 of them, no leading zero, value at most 255. -/
def pyOctet (cs : List Char) : Option Nat :=
  if cs ≠ [] ∧ cs.all Char.isDigit ∧ cs.length ≤ 3 ∧ (cs.length = 1 ∨ cs.head? ≠ some '0')
  then
    if digitsToNat cs ≤ 255 then some (digitsToNat cs) else none
  else none

/-- `ipaddress`' `_ip_int_from_string`: exactly four octets, combined
big-endian into one 32-bit value. -/
def quadVal (cs : List Char) : Option Nat :=
  match pySplit '.' cs with
  | [a, b, c, d] =>
    match pyOctet a, pyOctet b, pyOctet c, pyOctet d with
    | some x, some y, some z, some w => some (((x * 256 + y) * 256 + z) * 256 + w)
    | _, _, _, _ => none
  | _ => none

/-- `ipaddress`' `_ip_int_from_prefix`: the netmask integer of a prefix
length (`ALL_ONES ^ (ALL_ONES >> prefixlen)`). -/
def maskVal (p : Nat) : Nat := (2 ^ 32 - 1) ^^^ ((2 ^ 32 - 1) >>> p)

/-- `ipaddress`' `_prefix_from_prefix_string`: an all-digit string whose
value is at most 32. -/
def pyPfx (cs : List Char) : Option Nat :=
  if cs ≠ [] ∧ cs.all Char.isDigit then
    if digitsToNat cs ≤ 32 then some (digitsToNat cs) else none
  else none

/-- `ipaddress`' `_make_netmask` for a string argument: a decimal prefix
length, else a dotted-quad netmask, else a dotted-quad hostmask. -/
def parseMask (cs : List Char) : Option Nat :=
  match pyPfx cs with
  | some p => some p
  | none =>
    match quadVal cs with
    | none => none
    | some m =>
      match (List.range 33).find? (fun p => maskVal p = m) with
      | some p => some p
      | none => (List.range 33).find? (fun p => maskVal p = (m ^^^ (2 ^ 32 - 1)))

/-- The network and broadcast integers of `ipaddress.ip_network(_, strict=False)`:
the address is masked with the netmask, and the broadcast is the network
or-ed with the hostmask (`netmask ^ ALL_ONES`). -/
def netAndBcast (v p : Nat) : Nat × Nat :=
  (v &&& maskVal p, (v &&& maskVal p) ||| (maskVal p ^^^ (2 ^ 32 - 1)))

/-- `ipaddress.ip_network(address, strict=False)` on an IPv4 expression:
at most one `/`; a bare address gets the implicit prefix 32.  Strings the
library would only accept as IPv6 are rejected here; in the script their
octet conversion fails inside the same `try` block, so both end in the
sentinel path. -/
def ip_network4 (cs : List Char) : Option (Nat × Nat) :=
  match pySplit '/' cs with
  | [a] => (quadVal a).map (fun v => netAndBcast v 32)
  | [a, m] =>
    match quadVal a, parseMask m with
    | some v, some p => some (netAndBcast v p)
    | _, _ => none
  | _ => none

/-- The four dotted-quad octets of a 32-bit value, as written by
`str(IPv4Address(v))` and read back by `int`. -/
def octetsOfN (v : Nat) : List Int :=
  [Int.ofNat (v / 2 ^ 24 % 256), Int.ofNat (v / 2 ^ 16 % 256),
   Int.ofNat (v / 2 ^ 8 % 256), Int.ofNat (v % 256)]

/-- The `try` block of `calculate_ranges` (lines 138-147): `none` models an
exception reaching the `except` handler. -/
def calc_core (cs : List Char) : Option (List Int) :=
  if '-' ∈ cs then
    match pySplit '-' cs with
    | [lower, upper] =>
      match (pySplit '.' lower).mapM pyInt, (pySplit '.' upper).mapM pyInt with
      | some lower_octets, some upper_octets => some (lower_octets ++ upper_octets)
      | _, _ => none
    | _ => none
  else
    match ip_network4 cs with
    | some nb => some (octetsOfN nb.1 ++ octetsOfN nb.2)
    | none => none

/-- `calculate_ranges` (lines 137-150): the computed bound list, or eight
`'N/A'` sentinels when the `try` block raised. -/
def calculate_ranges (address : String) : List BCell :=
  match calc_core address.data with
  | some l => l.map BCell.int
  | none => List.replicate 8 BCell.na

/-- `calculate_subnets` (lines 134-159): compute every row's bound list and
assign the eight `netIPOct*` columns from it.  pandas' `df[columns] = lists`
assignment raises `ValueError` unless every list has exactly the eight
entries the column list names; in that case each row receives its list. -/
def calculate_subnets (df : List Row) : Except String (List Row) :=
  let lists := df.map (fun r => calculate_ranges r.netAddress)
  if lists.all (fun l => l.length == 8) then
    Except.ok ((df.zip lists).map (fun p => { p.1 with subnetBounds := p.2 }))
  else Except.error "ValueError: Columns must be same length as key"

/-! Arithmetic characterisation of the netmask computation. -/

theorem two_pow_sub_one_div (n p : Nat) (h : p ≤ n) :
    (2 ^ n - 1) / 2 ^ p = 2 ^ (n - p) - 1 := by
  rw [← Nat.shiftRight_eq_div_pow]
  apply Nat.eq_of_testBit_eq
  intro i
  simp only [Nat.testBit_shiftRight, Nat.testBit_two_pow_sub_one, decide_eq_decide]
  omega

theorem maskVal_eq (p : Nat) (h : p ≤ 32) :
    maskVal p = (2 ^ 32 - 1) ^^^ (2 ^ (32 - p) - 1) := by
  unfold maskVal
  rw [Nat.shiftRight_eq_div_pow, two_pow_sub_one_div 32 p h]

theorem hostmask_eq (p : Nat) (h : p ≤ 32) :
    maskVal p ^^^ (2 ^ 32 - 1) = 2 ^ (32 - p) - 1 := by
  rw [maskVal_eq p h, Nat.xor_comm (2 ^ 32 - 1) (2 ^ (32 - p) - 1), Nat.xor_assoc,
    Nat.xor_self, Nat.xor_zero]

theorem maskVal_testBit (p i : Nat) (h : p ≤ 32) :
    (maskVal p).testBit i = decide (32 - p ≤ i ∧ i < 32) := by
  rw [maskVal_eq p h]
  simp only [Nat.testBit_xor, Nat.testBit_two_pow_sub_one]
  by_cases h1 : i < 32 <;> by_cases h2 : i < 32 - p <;>
    simp [h1, h2] <;> omega

theorem land_maskVal (v p : Nat) (hv : v < 2 ^ 32) (hp : p ≤ 32) :
    v &&& maskVal p = 2 ^ (32 - p) * (v / 2 ^ (32 - p)) := by
  apply Nat.eq_of_testBit_eq
  intro i
  rw [Nat.testBit_and, maskVal_testBit p i hp]
  rw [show 2 ^ (32 - p) * (v / 2 ^ (32 - p)) = (v >>> (32 - p)) <<< (32 - p) by
    rw [Nat.shiftLeft_eq, Nat.shiftRight_eq_div_pow, Nat.mul_comm]]
  rw [Nat.testBit_shiftLeft, Nat.testBit_shiftRight]
  by_cases h1 : 32 - p ≤ i
  · by_cases h2 : i < 32
    · have e : 32 - p + (i - (32 - p)) = i := by omega
      rw [e]
      simp [h1, h2]
    · have hvb : v.testBit i = false :=
        Nat.testBit_lt_two_pow
          (lt_of_lt_of_le hv (Nat.pow_le_pow_of_le (by norm_num) (by omega)))
      simp [h1, h2, hvb]
  · have h2 : ¬(32 - p ≤ i ∧ i < 32) := fun hh => h1 hh.1
    simp [h1, h2]

theorem mul_pow_lor_sub_one (q k : Nat) :
    2 ^ k * q ||| (2 ^ k - 1) = 2 ^ k * q + (2 ^ k - 1) := by
  apply Nat.eq_of_testBit_eq
  intro i
  rw [Nat.testBit_or, Nat.testBit_two_pow_sub_one]
  rw [show 2 ^ k * q = q <<< k by rw [Nat.shiftLeft_eq, Nat.mul_comm]]
  rw [Nat.testBit_shiftLeft]
  by_cases h1 : i < k
  · have hdiv : (q <<< k + (2 ^ k - 1)) / 2 ^ i % 2 = 1 := by
      have e1 : q <<< k + (2 ^ k - 1) = 2 ^ i * (2 ^ (k - i) * q) + (2 ^ k - 1) := by
        rw [Nat.shiftLeft_eq, Nat.mul_comm q, ← Nat.mul_assoc, ← Nat.pow_add]
        congr 3
        omega
      rw [e1, Nat.mul_add_div (Nat.two_pow_pos i), two_pow_sub_one_div k i (by omega)]
      have e2 : (2 : Nat) ^ (k - i) = 2 * 2 ^ (k - i - 1) := by
        rw [← Nat.pow_succ']
        congr 1
        omega
      rw [e2]
      have hm : 0 < 2 ^ (k - i - 1) := Nat.two_pow_pos _
      set m := 2 ^ (k - i - 1) with hmdef
      set t := m * q with htdef
      have : 2 * m * q = 2 * t := by rw [htdef]; ring
      rw [this]
      omega
    conv_rhs => rw [Nat.testBit_to_div_mod]
    rw [hdiv]
    simp [h1]
  · have e3 : (q <<< k + (2 ^ k - 1)) / 2 ^ i = q / 2 ^ (i - k) := by
      rw [show (2 : Nat) ^ i = 2 ^ k * 2 ^ (i - k) by rw [← Nat.pow_add]; congr 1; omega]
      rw [← Nat.div_div_eq_div_mul]
      congr 1
      rw [Nat.shiftLeft_eq, Nat.mul_comm q, Nat.mul_add_div (Nat.two_pow_pos k)]
      have hlt : (2 ^ k - 1) / 2 ^ k = 0 := Nat.div_eq_of_lt (by have := Nat.two_pow_pos k; omega)
      omega
    rw [Nat.testBit_to_div_mod, Nat.testBit_to_div_mod, e3]
    simp [h1, Nat.not_lt.mp h1]

/-- The mask-and-or computation of `ip_network` is floor/ceiling arithmetic
on the block of size `2^(32-p)`. -/
theorem netAndBcast_eq (v p : Nat) (hv : v < 2 ^ 32) (hp : p ≤ 32) :
    netAndBcast v p =
      (v - v % 2 ^ (32 - p), v - v % 2 ^ (32 - p) + (2 ^ (32 - p) - 1)) := by
  have hdm := Nat.div_add_mod v (2 ^ (32 - p))
  have e : 2 ^ (32 - p) * (v / 2 ^ (32 - p)) = v - v % 2 ^ (32 - p) := by omega
  unfold netAndBcast
  rw [hostmask_eq p hp, land_maskVal v p hv hp, mul_pow_lor_sub_one, e]

/-! Bounds delivered by the parsers. -/

theorem pyOctet_le (cs : List Char) (n : Nat) (h : pyOctet cs = some n) : n ≤ 255 := by
  unfold pyOctet at h
  split at h
  · split at h
    · injection h with h
      omega
    · exact absurd h (by simp)
  · exact absurd h (by simp)

theorem quadVal_lt (cs : List Char) (v : Nat) (h : quadVal cs = some v) : v < 2 ^ 32 := by
  unfold quadVal at h
  split at h
  · rename_i a b c d _
    split at h
    · rename_i x y z w hx hy hz hw
      injection h with h
      have := pyOctet_le a x hx
      have := pyOctet_le b y hy
      have := pyOctet_le c z hz
      have := pyOctet_le d w hw
      omega
    · exact absurd h (by simp)
  · exact absurd h (by simp)

theorem pyPfx_le (cs : List Char) (p : Nat) (h : pyPfx cs = some p) : p ≤ 32 := by
  unfold pyPfx at h
  split at h
  · split at h
    · injection h with h
      omega
    · exact absurd h (by simp)
  · exact absurd h (by simp)

theorem parseMask_le (cs : List Char) (p : Nat) (h : parseMask cs = some p) : p ≤ 32 := by
  unfold parseMask at h
  split at h
  · rename_i p' hp'
    injection h with h
    subst h
    exact pyPfx_le cs _ hp'
  · split at h
    · exact absurd h (by simp)
    · split at h
      · rename_i p' hp'
        injection h with h
        subst h
        have := List.mem_range.mp (List.mem_of_find?_eq_some hp')
        omega
      · have := List.mem_range.mp (List.mem_of_find?_eq_some h)
        omega

/-! Splitting lemmas for `pySplit`. -/

theorem pySplit_no_sep (sep : Char) (l : List Char) (h : sep ∉ l) :
    pySplit sep l = [l] := by
  induction l with
  | nil => rfl
  | cons c cs ih =>
    have hc : ¬ c = sep := fun e => h (e ▸ List.mem_cons_self c cs)
    have hcs : sep ∉ cs := fun m => h (List.mem_cons_of_mem c m)
    simp [pySplit, hc, ih hcs]

theorem pySplit_sep_append (sep : Char) (l u : List Char) (hl : sep ∉ l) :
    pySplit sep (l ++ sep :: u) = l :: pySplit sep u := by
  induction l with
  | nil => simp [pySplit]
  | cons c cs ih =>
    have hc : ¬ c = sep := fun e => hl (e ▸ List.mem_cons_self c cs)
    have hcs : sep ∉ cs := fun m => hl (List.mem_cons_of_mem c m)
    simp [pySplit, hc, ih hcs]

theorem pySplit_pair (sep : Char) (l u : List Char) (hl : sep ∉ l) (hu : sep ∉ u) :
    pySplit sep (l ++ sep :: u) = [l, u] := by
  rw [pySplit_sep_append sep l u hl, pySplit_no_sep sep u hu]

/-- **C5** Address classification: an address containing a hyphen is split
into its two sides, whose dot-separated integers are returned verbatim as
lower and upper bounds — with no reordering even when the upper side is
numerically below the lower; an address with a `/mask` part is a CIDR
block whose bounds are its network address (the value floored to the block
boundary) and broadcast address (network plus block size minus one); a
bare dotted-quad host is the CIDR block of prefix 32, both of whose bounds
are the host itself.  In particular `"10.0.0.0/24"` classifies to lower
`[10,0,0,0]`, upper `[10,0,0,255]`, and `"10.0.0.5-10.0.0.9"` to lower
`[10,0,0,5]`, upper `[10,0,0,9]`. -/
theorem C5_address_classifier :
    (∀ l u lo uo, '-' ∉ l → '-' ∉ u →
      (pySplit '.' l).mapM pyInt = some lo → (pySplit '.' u).mapM pyInt = some uo →
      calculate_ranges (String.mk (l ++ '-' :: u)) = (lo ++ uo).map BCell.int)
  ∧ (∀ a m v p, '-' ∉ a → '-' ∉ m → '/' ∉ a → '/' ∉ m →
      quadVal a = some v → parseMask m = some p →
      calculate_ranges (String.mk (a ++ '/' :: m)) =
        ((octetsOfN (v - v % 2 ^ (32 - p)) ++
          octetsOfN (v - v % 2 ^ (32 - p) + (2 ^ (32 - p) - 1))).map BCell.int))
  ∧ (∀ a v, '-' ∉ a → '/' ∉ a → quadVal a = some v →
      calculate_ranges (String.mk a) = ((octetsOfN v ++ octetsOfN v).map BCell.int))
  ∧ calculate_ranges "10.0.0.0/24" =
      ([10, 0, 0, 0, 10, 0, 0, 255] : List Int).map BCell.int
  ∧ calculate_ranges "10.0.0.5-10.0.0.9" =
      ([10, 0, 0, 5, 10, 0, 0, 9] : List Int).map BCell.int := by
  refine ⟨?_, ?_, ?_, by decide, by decide⟩
  · intro l u lo uo hl hu hlo huo
    have hmem : '-' ∈ (l ++ '-' :: u) := List.mem_append_right _ (List.mem_cons_self _ _)
    unfold calculate_ranges calc_core
    rw [if_pos hmem, pySplit_pair '-' l u hl hu]
    dsimp only
    rw [hlo, huo]
  · intro a m v p ha hm hsa hsm hv hp
    have hnot : '-' ∉ (a ++ '/' :: m) := by
      intro hmem
      rcases List.mem_append.mp hmem with h | h
      · exact ha h
      · rcases List.mem_cons.mp h with h | h
        · exact absurd h (by decide)
        · exact hm h
    unfold calculate_ranges calc_core
    rw [if_neg hnot]
    unfold ip_network4
    rw [pySplit_pair '/' a m hsa hsm]
    dsimp only
    rw [hv, hp]
    dsimp only
    rw [netAndBcast_eq v p (quadVal_lt a v hv) (parseMask_le m p hp)]
  · intro a v ha hs hv
    unfold calculate_ranges calc_core
    rw [if_neg ha]
    unfold ip_network4
    rw [pySplit_no_sep '/' a hs]
    dsimp only
    rw [hv]
    have h32 : netAndBcast v 32 = (v, v) := by
      rw [netAndBcast_eq v 32 (quadVal_lt a v hv) (le_refl 32)]
      simp [Nat.mod_one]
    dsimp only [Option.map]
    rw [h32]

/-- Witness for `C5_address_classifier`: the hyphen branch with the upper
bound numerically below the lower is preserved verbatim, and a `/28`
block gets its network/broadcast bounds. -/
theorem C5_address_classifier_witness :
    calculate_ranges (String.mk ("10.0.0.9".data ++ '-' :: "10.0.0.5".data)) =
      ([10, 0, 0, 9, 10, 0, 0, 5] : List Int).map BCell.int ∧
    calculate_ranges (String.mk ("172.16.4.7".data ++ '/' :: "28".data)) =
      ((octetsOfN (2886730759 - 2886730759 % 2 ^ (32 - 28)) ++
        octetsOfN (2886730759 - 2886730759 % 2 ^ (32 - 28) + (2 ^ (32 - 28) - 1))).map
          BCell.int) :=
  ⟨C5_address_classifier.1 "10.0.0.9".data "10.0.0.5".data
      ([10, 0, 0, 9] : List Int) ([10, 0, 0, 5] : List Int)
      (by decide) (by decide) (by decide) (by decide),
   C5_address_classifier.2.1 "172.16.4.7".data "28".data 2886730759 28
      (by decide) (by decide) (by decide) (by decide) (by decide) (by decide)⟩

/-! ## C6: sentinel substitution in `calculate_subnets` -/

theorem getD_zip_lt {α β : Type} (l : List α) (l' : List β) (d : α) (d' : β) (i : Nat)
    (h1 : i < l.length) (h2 : i < l'.length) :
    (l.zip l').getD i (d, d') = (l.getD i d, l'.getD i d') := by
  induction l generalizing l' i with
  | nil => exact absurd h1 (by simp)
  | cons a as ih =>
    cases l' with
    | nil => exact absurd h2 (by simp)
    | cons b bs =>
      cases i with
      | zero => rfl
      | succ j =>
        simp only [List.zip_cons_cons, List.getD_cons_succ]
        exact ih bs j (by simpa using h1) (by simpa using h2)

/-- **C6 (amended)** A classification failure is caught inside
`calculate_ranges`, which returns exactly eight `'N/A'` sentinels for that
address.  Provided every row's computed bound list has exactly eight
entries — automatic for classification failures and for dotted-quad
expressions, but violated by a parseable hyphen range whose sides are not
four-octet quads — `calculate_subnets` completes without an error, keeps
every record in order, and stores each row's bound list (so the eight
sentinels for each failing record). -/
theorem C6_sentinel_amended (df : List Row)
    (h : ∀ r ∈ df, (calculate_ranges r.netAddress).length = 8) :
    (∀ a, calc_core a.data = none → calculate_ranges a = List.replicate 8 BCell.na)
  ∧ ∃ out, calculate_subnets df = Except.ok out ∧ out.length = df.length ∧
      (∀ i, i < df.length →
        (out.getD i dRow).netAddress = (df.getD i dRow).netAddress ∧
        (out.getD i dRow).subnetBounds =
          calculate_ranges ((df.getD i dRow).netAddress)) := by
  constructor
  · intro a hnone
    unfold calculate_ranges
    rw [hnone]
  · unfold calculate_subnets
    have hall : (df.map (fun r => calculate_ranges r.netAddress)).all
        (fun l => l.length == 8) = true := by
      rw [List.all_eq_true]
      intro l hl
      rcases List.mem_map.mp hl with ⟨r, hr, rfl⟩
      simpa using h r hr
    rw [if_pos hall]
    refine ⟨_, rfl, ?_, ?_⟩
    · simp
    · intro i hi
      have hlen : i < (df.zip (df.map (fun r => calculate_ranges r.netAddress))).length := by
        simpa using hi
      rw [getD_map_lt _ _ dRow (dRow, []) i hlen,
        getD_zip_lt df _ dRow [] i hi (by simpa using hi),
        getD_map_lt _ _ [] dRow i hi]
      exact ⟨rfl, rfl⟩

/-- A record whose address fails classification (three hyphen-separated
pieces make the two-target unpacking raise `ValueError`). -/
def c6Row : Row := { dRow with netAddress := "not-an-ip", fwNetEnv := "prod" }

/-- A record whose address parses in the hyphen branch but yields only
four bound values instead of eight. -/
def c6Row2 : Row := { dRow with netAddress := "1.2-3.4", fwNetEnv := "prod" }

/-- Counterexample to **C6** as stated: `"not-an-ip"` fails classification,
yet in a batch that also contains the parseable short range `"1.2-3.4"`
the column assignment of `calculate_subnets` raises, so the failing record
is not carried through with its eight sentinels and the batch aborts. -/
theorem C6_sentinel_cex :
    calc_core "not-an-ip".data = none ∧
    calculate_ranges "not-an-ip" = List.replicate 8 BCell.na ∧
    calculate_subnets [c6Row, c6Row2] =
      Except.error "ValueError: Columns must be same length as key" := by
  refine ⟨by decide, by decide, ?_⟩
  rfl

/-- Witness for `C6_sentinel_amended`: a batch of one failing address
annotates fine, and the failing address gets its eight sentinels. -/
theorem C6_sentinel_amended_witness :
    calculate_ranges "not-an-ip" = List.replicate 8 BCell.na ∧
    (calculate_subnets [c6Row]).isOk = true := by
  constructor
  · exact (C6_sentinel_amended [] (by simp)).1 "not-an-ip" (by decide)
  · obtain ⟨out, hout, -, -⟩ := (C6_sentinel_amended [c6Row] (by decide)).2
    rw [hout]
    rfl

/-! ## DNS verification (`resolve_dns` / `process_dns`, lines 75-130)

The two `socket` calls are an injected capability; `none` models the call
raising.  `process_dns` fans the rows out to a thread pool but writes each
result back by row index, so its outcome is the per-row map below. -/

structure DnsResult where
  fwNetHostName : String
  fwNetReverseLookup : String
  nslookUpMatch : String
deriving DecidableEq, Repr

structure Resolver where
  gethostbyaddr : String → Option String
  gethostbyname_ex : String → Option (List String)

/-- Lines 75-111: skip ranges; reverse-look-up the address; on success,
forward-look-up the hostname (a failure there counts as the empty list)
and compare. -/
def resolve_dns (res : Resolver) (net_address : String) : DnsResult :=
  if hasChar net_address '/' ∨ hasChar net_address '-' then
    { fwNetHostName := "SKIP-NETWORK RANGE", fwNetReverseLookup := "N/A",
      nslookUpMatch := "SKIP-NETWORK RANGE" }
  else
    match res.gethostbyaddr net_address with
    | none =>
      { fwNetHostName := "N/A", fwNetReverseLookup := "N/A", nslookUpMatch := "NO MATCH" }
    | some hostname =>
      match res.gethostbyname_ex hostname with
      | some ip_list =>
        { fwNetHostName := hostname, fwNetReverseLookup := String.intercalate "," ip_list,
          nslookUpMatch := if net_address ∈ ip_list then "MATCH" else "NO MATCH" }
      | none =>
        { fwNetHostName := hostname, fwNetReverseLookup := "N/A",
          nslookUpMatch := "NO MATCH" }

/-- Lines 115-130: write each row's result back into its three DNS columns,
keyed by the row's index. -/
def process_dns (res : Resolver) (df : List Row) : List Row :=
  df.map (fun r =>
    { r with
      fwNetHostName := some (resolve_dns res r.netAddress).fwNetHostName
      fwNetReverseLookup := some (resolve_dns res r.netAddress).fwNetReverseLookup
      nslookUpMatch := some (resolve_dns res r.netAddress).nslookUpMatch })

/-- **C7** For a non-range address: a failing reverse lookup yields exactly
the defaults (`"N/A"`, `"N/A"`, `"NO MATCH"`); a successful reverse lookup
yields verdict `"MATCH"` precisely when the address occurs in the forward
lookup's address list (a failing forward lookup counting as the empty
list), and the literal `"NO MATCH"` otherwise. -/
theorem C7_dns_verdict (res : Resolver) (a : String)
    (hs : ¬ hasChar a '/') (hh : ¬ hasChar a '-') :
    (res.gethostbyaddr a = none →
      resolve_dns res a = ⟨"N/A", "N/A", "NO MATCH"⟩)
  ∧ (∀ h, res.gethostbyaddr a = some h →
      ((resolve_dns res a).nslookUpMatch = "MATCH" ↔
        a ∈ (res.gethostbyname_ex h).getD []))
  ∧ (∀ h, res.gethostbyaddr a = some h →
      a ∉ (res.gethostbyname_ex h).getD [] →
      (resolve_dns res a).nslookUpMatch = "NO MATCH") := by
  have hcond : ¬ (hasChar a '/' ∨ hasChar a '-') := by
    intro hc
    rcases hc with hc | hc
    · exact hs hc
    · exact hh hc
  refine ⟨?_, ?_, ?_⟩
  · intro hnone
    unfold resolve_dns
    rw [if_neg hcond, hnone]
  · intro h hsome
    unfold resolve_dns
    rw [if_neg hcond, hsome]
    cases hfwd : res.gethostbyname_ex h with
    | none =>
      simp [hfwd]
    | some l =>
      dsimp only
      rw [hfwd]
      dsimp only [Option.getD]
      by_cases hmem : a ∈ l
      · simp [hmem]
      · simp [hmem]
  · intro h hsome hnotmem
    unfold resolve_dns
    rw [if_neg hcond, hsome]
    dsimp only
    cases hfwd : res.gethostbyname_ex h with
    | none => rfl
    | some l =>
      rw [hfwd] at hnotmem
      dsimp only [Option.getD] at hnotmem
      dsimp only
      rw [if_neg hnotmem]

/-- Resolver used to instantiate the DNS theorems: `9.9.9.9` resolves to
`host.example`, whose forward lookup lists `9.9.9.9` and `9.9.9.10`. -/
def wRes : Resolver :=
  { gethostbyaddr := fun a => if a = "9.9.9.9" then some "host.example" else none
    gethostbyname_ex := fun h =>
      if h = "host.example" then some ["9.9.9.9", "9.9.9.10"] else none }

/-- A resolver whose reverse lookup succeeds on `9.9.9.11`, an address the
forward lookup of the resolved hostname does not list. -/
def wResB : Resolver :=
  { gethostbyaddr := fun a => if a = "9.9.9.11" then some "host.example" else none
    gethostbyname_ex := fun h =>
      if h = "host.example" then some ["9.9.9.9", "9.9.9.10"] else none }

/-- Witness for `C7_dns_verdict`: the sample resolver produces a `"MATCH"`
for `9.9.9.9`, the defaults for the unresolvable `9.9.9.8`, and the
literal `"NO MATCH"` for the resolvable but unlisted `9.9.9.11`. -/
theorem C7_dns_verdict_witness :
    ((resolve_dns wRes "9.9.9.9").nslookUpMatch = "MATCH" ↔
      "9.9.9.9" ∈ (wRes.gethostbyname_ex "host.example").getD []) ∧
    resolve_dns wRes "9.9.9.8" = ⟨"N/A", "N/A", "NO MATCH"⟩ ∧
    (resolve_dns wResB "9.9.9.11").nslookUpMatch = "NO MATCH" :=
  ⟨(C7_dns_verdict wRes "9.9.9.9" (by decide) (by decide)).2.1 "host.example" (by decide),
   (C7_dns_verdict wRes "9.9.9.8" (by decide) (by decide)).1 (by decide),
   (C7_dns_verdict wResB "9.9.9.11" (by decide) (by decide)).2.2 "host.example"
     (by decide) (by decide)⟩

/-! ## Reachability probing (`ping` / `ping_objects`, lines 162-183)

`subprocess.check_output` is an injected prober capability mapping the
command list and the timeout to an outcome. -/

inductive ProbeOutcome where
  | ok : String → ProbeOutcome
  | calledProcessError : String → ProbeOutcome
  | err : ProbeOutcome
deriving DecidableEq, Repr

/-- Lines 165-177: run `['ping', param, '2', ip]` with a 5-second timeout;
any output means `'YES'`, a non-zero exit (`CalledProcessError`) or any
other exception (including the timeout) means `'NO'`. -/
def ping (probe : List String → Nat → ProbeOutcome) (isWindows : Bool) (ip : String) :
    String :=
  match probe ["ping", if isWindows then "-n" else "-c", "2", ip] 5 with
  | ProbeOutcome.ok _ => "YES"
  | ProbeOutcome.calledProcessError _ => "NO"
  | ProbeOutcome.err => "NO"

/-- Line 180: the per-address lambda — probe unless the address is a
range. -/
def pingCell (probe : List String → Nat → ProbeOutcome) (isWindows : Bool) (ip : String) :
    String :=
  if ¬ hasChar ip '/' ∧ ¬ hasChar ip '-' then ping probe isWindows ip
  else "SKIP - NETWORK RANGE"

/-- Lines 162-183: fill the `fwNetPingable` column row by row. -/
def ping_objects (probe : List String → Nat → ProbeOutcome) (isWindows : Bool)
    (df : List Row) : List Row :=
  df.map (fun r => { r with fwNetPingable := some (pingCell probe isWindows r.netAddress) })

/-- **C8** A range address (containing `-` or `/`) short-circuits both
enrichment steps: DNS verification returns the skip literals for every
resolver (so no resolver call can influence it), and the reachability cell
is the skip literal for every prober. -/
theorem C8_range_skip (a : String) (h : hasChar a '/' ∨ hasChar a '-') :
    (∀ res : Resolver,
      resolve_dns res a = ⟨"SKIP-NETWORK RANGE", "N/A", "SKIP-NETWORK RANGE"⟩)
  ∧ (∀ (probe : List String → Nat → ProbeOutcome) (isWindows : Bool),
      pingCell probe isWindows a = "SKIP - NETWORK RANGE") := by
  constructor
  · intro res
    unfold resolve_dns
    rw [if_pos h]
  · intro probe isWindows
    unfold pingCell
    rw [if_neg (by
      intro hc
      rcases h with h | h
      · exact hc.1 h
      · exact hc.2 h)]

/-- Witness for `C8_range_skip` at the CIDR block `10.0.0.0/24`. -/
theorem C8_range_skip_witness :
    resolve_dns wRes "10.0.0.0/24" =
      ⟨"SKIP-NETWORK RANGE", "N/A", "SKIP-NETWORK RANGE"⟩ ∧
    pingCell (fun _ _ => ProbeOutcome.ok "64 bytes") true "10.0.0.0/24" =
      "SKIP - NETWORK RANGE" :=
  ⟨(C8_range_skip "10.0.0.0/24" (by decide)).1 wRes,
   (C8_range_skip "10.0.0.0/24" (by decide)).2 (fun _ _ => ProbeOutcome.ok "64 bytes") true⟩

/-- **C9** For a non-range address the probe runs the ping command with
exactly the attempt-count argument `"2"` and the 5-second timeout; it
yields `"YES"` exactly when the prober reports success and `"NO"` on every
failure, and `ping_objects` writes each row's cell from that row's address
alone, so one probe's outcome cannot affect another record. -/
theorem C9_probe (probe : List String → Nat → ProbeOutcome) (isWindows : Bool) (ip : String)
    (hs : ¬ hasChar ip '/') (hh : ¬ hasChar ip '-') :
    (pingCell probe isWindows ip = "YES" ∨ pingCell probe isWindows ip = "NO")
  ∧ (pingCell probe isWindows ip = "YES" ↔
      ∃ out, probe ["ping", if isWindows then "-n" else "-c", "2", ip] 5 =
        ProbeOutcome.ok out)
  ∧ (∀ df df' i, i < df.length → i < df'.length →
      (df.getD i dRow).netAddress = (df'.getD i dRow).netAddress →
      ((ping_objects probe isWindows df).getD i dRow).fwNetPingable =
        ((ping_objects probe isWindows df').getD i dRow).fwNetPingable) := by
  have hcell : pingCell probe isWindows ip = ping probe isWindows ip := by
    unfold pingCell
    rw [if_pos ⟨hs, hh⟩]
  refine ⟨?_, ?_, ?_⟩
  · rw [hcell]
    unfold ping
    split
    · left; rfl
    · right; rfl
    · right; rfl
  · rw [hcell]
    unfold ping
    constructor
    · intro h
      split at h
      · rename_i out heq
        exact ⟨out, heq⟩
      · exact absurd h (by decide)
      · exact absurd h (by decide)
    · rintro ⟨out, heq⟩
      rw [heq]
  · intro df df' i h1 h2 haddr
    unfold ping_objects
    rw [getD_map_lt _ _ dRow dRow i h1, getD_map_lt _ _ dRow dRow i h2]
    dsimp only
    rw [haddr]

/-- Witness for `C9_probe`: a prober succeeding exactly on the 5-second
two-attempt ping of `1.2.3.4` makes that cell `"YES"`. -/
theorem C9_probe_witness :
    pingCell
      (fun cmd t =>
        if cmd = ["ping", "-c", "2", "1.2.3.4"] ∧ t = 5 then ProbeOutcome.ok "ok"
        else ProbeOutcome.err)
      false "1.2.3.4" = "YES" :=
  ((C9_probe
      (fun cmd t =>
        if cmd = ["ping", "-c", "2", "1.2.3.4"] ∧ t = 5 then ProbeOutcome.ok "ok"
        else ProbeOutcome.err)
      false "1.2.3.4" (by decide) (by decide)).2.1).mpr ⟨"ok", by decide⟩

/-! ## The pipeline (`__main__`, lines 186-209) -/

/-- The enrichment pipeline of the main script: deltas, DNS, subnets (the
dataset saved at the first checkpoint), then pings (saved again).  The
`Except` propagates the only failure the enrichment steps can raise. -/
def pipeline (res : Resolver) (probe : List String → Nat → ProbeOutcome)
    (isWindows : Bool) (prev curr : List Row) (today : String) :
    Except String (List Row) := do
  let combined := calculate_deltas prev curr today
  let combined := process_dns res combined
  let combined ← calculate_subnets combined
  pure (ping_objects probe isWindows combined)

/-- **C10** Every row of the reconciled dataset carries the helper column
`unique_key = netAddress ++ "|" ++ fwNetEnv`, and no later stage of the
pipeline removes or changes it, so it is still present in the dataset that
gets persisted. -/
theorem C10_unique_key (prev curr : List Row) (today : String) :
    (∀ r ∈ calculate_deltas prev curr today,
      r.unique_key = r.netAddress ++ "|" ++ r.fwNetEnv)
  ∧ (∀ (res : Resolver) (probe : List String → Nat → ProbeOutcome) (isWindows : Bool) out,
      pipeline res probe isWindows prev curr today = Except.ok out →
      ∀ r ∈ out, r.unique_key = r.netAddress ++ "|" ++ r.fwNetEnv) := by
  have hkey : ∀ r ∈ calculate_deltas prev curr today,
      r.unique_key = r.netAddress ++ "|" ++ r.fwNetEnv := by
    rw [calculate_deltas_eq]
    intro r hr
    rcases List.mem_append.mp hr with h | h
    · rcases List.mem_map.mp h with ⟨a, _, rfl⟩
      simp only [fillnaDropped_unique_key, updActive_unique_key, markRemoved_unique_key,
        withKey_unique_key, fillnaDropped_netAddress, updActive_netAddress,
        markRemoved_netAddress, withKey_netAddress, fillnaDropped_fwNetEnv,
        updActive_fwNetEnv, markRemoved_fwNetEnv, withKey_fwNetEnv]
      rfl
    · rcases List.mem_map.mp h with ⟨a, _, rfl⟩
      simp only [fillnaDropped_unique_key, updActive_unique_key, initNew_unique_key,
        withKey_unique_key, fillnaDropped_netAddress, updActive_netAddress,
        initNew_netAddress, withKey_netAddress, fillnaDropped_fwNetEnv,
        updActive_fwNetEnv, initNew_fwNetEnv, withKey_fwNetEnv]
      rfl
  refine ⟨hkey, ?_⟩
  intro res probe isWindows out hout r hr
  unfold pipeline at hout
  dsimp only at hout
  cases hsub : calculate_subnets (process_dns res (calculate_deltas prev curr today)) with
  | error e =>
    rw [hsub] at hout
    exact absurd hout (by simp [Bind.bind, Except.bind])
  | ok mid =>
    rw [hsub] at hout
    have hout' : ping_objects probe isWindows mid = out := by
      simpa [Bind.bind, Except.bind, pure, Except.pure] using hout
    subst hout'
    unfold ping_objects at hr
    rcases List.mem_map.mp hr with ⟨b, hb, rfl⟩
    dsimp only
    unfold calculate_subnets at hsub
    dsimp only at hsub
    split at hsub
    · injection hsub with hsub
      subst hsub
      rcases List.mem_map.mp hb with ⟨pr, hpr, rfl⟩
      obtain ⟨x, y⟩ := pr
      dsimp only
      have hfst := (List.of_mem_zip hpr).1
      unfold process_dns at hfst
      rcases List.mem_map.mp hfst with ⟨q, hq, rfl⟩
      have := hkey q hq
      simpa using this
    · exact absurd hsub (by simp)

/-- Two small snapshots used to run the whole pipeline once. -/
def wRowP : Row := { dRow with netAddress := "1.2.3.4", fwNetEnv := "prod" }

def wRowC : Row := { dRow with netAddress := "5.6.7.8", fwNetEnv := "prod" }

/-- The dataset produced by one full pipeline run over a two-row
scenario. -/
def wPipeOut : List Row :=
  (pipeline wRes (fun _ _ => ProbeOutcome.err) false [wRowP] [wRowP, wRowC]
    "2026-02-03").toOption.getD []

/-- Witness for `C10_unique_key`: a full pipeline run over a two-row
scenario keeps `unique_key = address|environment` on its first row. -/
theorem C10_unique_key_witness :
    (wPipeOut.getD 0 dRow).unique_key = "1.2.3.4|prod" := by
  have h := (C10_unique_key [wRowP] [wRowP, wRowC] "2026-02-03").2 wRes
    (fun _ _ => ProbeOutcome.err) false wPipeOut (by rfl)
    (wPipeOut.getD 0 dRow) (by decide)
  rw [h]
  decide

/-! ## The frame model of `calculate_deltas` (column presence, C4)

pandas raises `KeyError` when a missing column is read and `TypeError`
when string concatenation meets a `NaN`; assignments (`df[c] = ...`,
`df.loc[mask, c] = ...`) create a missing column instead.  We model a
data frame as a column-name list plus rows of cells (`none` = `NaN`) and
`calculate_deltas` as the same sequence of frame operations, with
`Except` carrying the raised error. -/

abbrev Cell := Option String

structure Frame where
  cols : List String
  rows : List (List Cell)
deriving DecidableEq, Repr

def colIdxL : List String → String → Option Nat
  | [], _ => none
  | c :: cs, x => if c = x then some 0 else (colIdxL cs x).map (fun n => n + 1)

/-- Position of a column in the frame, if present. -/
def colIdx (f : Frame) (c : String) : Option Nat := colIdxL f.cols c

/-- Reading a column raises `KeyError` when it is absent. -/
def idxE (f : Frame) (c : String) : Except String Nat :=
  match colIdx f c with
  | some i => Except.ok i
  | none => Except.error ("KeyError: " ++ c)

/-- One cell of a row (an absent entry reads as `NaN`). -/
def cellAt (r : List Cell) (i : Nat) : Cell := r.getD i none

/-- `df[c] = vals`: overwrite the column, or append it when absent. -/
def setCol (f : Frame) (c : String) (vals : List Cell) : Frame :=
  match colIdx f c with
  | some i => { cols := f.cols, rows := f.rows.zipWith (fun r v => r.set i v) vals }
  | none => { cols := f.cols ++ [c], rows := f.rows.zipWith (fun r v => r ++ [v]) vals }

/-- `df.loc[mask, c] = v`: write `v` into the masked rows, creating the
column (with `NaN` elsewhere) when absent. -/
def setColMasked (f : Frame) (c : String) (mask : List Bool) (v : Cell) : Frame :=
  match colIdx f c with
  | some i =>
    { cols := f.cols, rows := f.rows.zipWith (fun r b => if b then r.set i v else r) mask }
  | none =>
    { cols := f.cols ++ [c],
      rows := f.rows.zipWith (fun r b => r ++ [if b then v else none]) mask }

/-- `df[c]` as a list of cells, or `KeyError`. -/
def getColE (f : Frame) (c : String) : Except String (List Cell) :=
  match colIdx f c with
  | some i => Except.ok (f.rows.map (fun r => cellAt r i))
  | none => Except.error ("KeyError: " ++ c)

/-- Lines 34-35: `df['unique_key'] = df['netAddress'] + '|' + df['fwNetEnv']`.
Reading a missing column raises `KeyError`; concatenating a `NaN` cell
raises `TypeError`. -/
def mkKeysE (f : Frame) : Except String (List String) := do
  let ia ← idxE f "netAddress"
  let ie ← idxE f "fwNetEnv"
  f.rows.mapM (fun r =>
    match cellAt r ia, cellAt r ie with
    | some a, some e => Except.ok (a ++ "|" ++ e)
    | _, _ => Except.error "TypeError: unsupported operand type(s) for +")

/-- `pd.concat([a, b], ignore_index=True)`: the union of the columns in
order of first appearance, rows re-indexed against it with `NaN` for a
column a side does not have. -/
def concatF (a b : Frame) : Frame :=
  let cols := a.cols ++ b.cols.filter (fun c => decide (c ∉ a.cols))
  { cols := cols
    rows :=
      a.rows.map (fun r => cols.map (fun c =>
        match colIdx a c with | some i => cellAt r i | none => none)) ++
      b.rows.map (fun r => cols.map (fun c =>
        match colIdx b c with | some i => cellAt r i | none => none)) }

/-- Lines 36-55 after the keys are built: write `unique_key`, mark removed
previous rows, single out the added current rows and initialise them,
concatenate. -/
def deltasCombined (pf cf : Frame) (today : String) (kp kc : List String) : Frame :=
  let df_prev1 := setCol pf "unique_key" (kp.map some)
  let df_curr1 := setCol cf "unique_key" (kc.map some)
  let removedMask := kp.map (fun k => decide (k ∈ kp ∧ k ∉ kc))
  let df_prev2 := setColMasked df_prev1 "fwNetDropped" removedMask (some "YES")
  let newFlags := kc.map (fun k => decide (k ∈ kc ∧ k ∉ kp))
  let newRows := ((df_curr1.rows.zip newFlags).filter (fun p => p.2)).map (fun p => p.1)
  let n1 : Frame := { cols := df_curr1.cols, rows := newRows }
  let n2 := setCol n1 "fwNetDropped" (List.replicate newRows.length (some "N/A"))
  let n3 := setCol n2 "fwNetDateAdded" (List.replicate newRows.length (some today))
  concatF df_prev2 n3

/-- Lines 59-62: the row-wise `apply` building the new `netUpdDate`
column; reads `fwNetDropped` on every row and `netUpdDate` only on rows
marked `'YES'`, raising `KeyError` if the column read is absent. -/
def updValsE (f : Frame) (today : String) : Except String (List Cell) :=
  f.rows.mapM (fun r => do
    let i ← idxE f "fwNetDropped"
    if cellAt r i = some "YES" then do
      let j ← idxE f "netUpdDate"
      pure (cellAt r j)
    else pure (some today))

/-- Lines 21-70 at frame level: the full reconciliation, with every
pandas error surfaced in the `Except`. -/
def calculate_deltas_frame (pf cf : Frame) (today : String) : Except String Frame := do
  let kp ← mkKeysE pf
  let kc ← mkKeysE cf
  let updVals ← updValsE (deltasCombined pf cf today kp kc) today
  let dcol ← getColE (setCol (deltasCombined pf cf today kp kc) "netUpdDate" updVals)
    "fwNetDropped"
  pure (setCol (setCol (deltasCombined pf cf today kp kc) "netUpdDate" updVals)
    "fwNetDropped" (dcol.map (fun c => some (c.getD "N/A"))))

/-! Success and failure conditions for the frame operations. -/

theorem bindE_ok {ε α β : Type} (a : α) (f : α → Except ε β) :
    (Except.ok a >>= f) = f a := rfl

theorem bindE_err {ε α β : Type} (e : ε) (f : α → Except ε β) :
    ((Except.error e : Except ε α) >>= f) = Except.error e := rfl

theorem colIdxL_isSome_iff (l : List String) (c : String) :
    (colIdxL l c).isSome ↔ c ∈ l := by
  induction l with
  | nil => simp [colIdxL]
  | cons a as ih =>
    by_cases h : a = c
    · simp [colIdxL, h]
    · have hmap : (Option.map (fun n => n + 1) (colIdxL as c)).isSome =
          (colIdxL as c).isSome := by
        cases colIdxL as c <;> rfl
      simp only [colIdxL, if_neg h, hmap, ih, List.mem_cons]
      constructor
      · exact Or.inr
      · rintro (rfl | hmem)
        · exact absurd rfl h
        · exact hmem

theorem idxE_ok_of_mem (f : Frame) (c : String) (h : c ∈ f.cols) :
    ∃ i, idxE f c = Except.ok i := by
  obtain ⟨i, hi⟩ := Option.isSome_iff_exists.mp ((colIdxL_isSome_iff f.cols c).mpr h)
  exact ⟨i, by unfold idxE colIdx; rw [hi]⟩

theorem idxE_err_of_not_mem (f : Frame) (c : String) (h : c ∉ f.cols) :
    idxE f c = Except.error ("KeyError: " ++ c) := by
  have : colIdxL f.cols c = none := by
    rw [← Option.not_isSome_iff_eq_none, colIdxL_isSome_iff]
    exact h
  unfold idxE colIdx
  rw [this]

theorem mapM_except_ok {ε α β : Type} (g : α → Except ε β) (l : List α)
    (h : ∀ x ∈ l, ∃ y, g x = Except.ok y) : ∃ ys, l.mapM g = Except.ok ys := by
  induction l with
  | nil => exact ⟨[], rfl⟩
  | cons a as ih =>
    obtain ⟨y, hy⟩ := h a (List.mem_cons_self a as)
    obtain ⟨ys, hys⟩ := ih (fun x hx => h x (List.mem_cons_of_mem a hx))
    refine ⟨y :: ys, ?_⟩
    rw [List.mapM_cons, hy, bindE_ok, hys, bindE_ok]
    rfl

/-- The property that makes the key construction succeed for a frame:
both key columns are present and none of their cells is `NaN`. -/
def keyCellsOk (f : Frame) : Prop :=
  ∃ ia ie, colIdx f "netAddress" = some ia ∧ colIdx f "fwNetEnv" = some ie ∧
    ∀ r ∈ f.rows, (cellAt r ia).isSome ∧ (cellAt r ie).isSome

theorem mkKeysE_ok_of (f : Frame) (h : keyCellsOk f) :
    ∃ ks, mkKeysE f = Except.ok ks := by
  obtain ⟨ia, ie, hia, hie, hcells⟩ := h
  have h1 : idxE f "netAddress" = Except.ok ia := by unfold idxE; rw [hia]
  have h2 : idxE f "fwNetEnv" = Except.ok ie := by unfold idxE; rw [hie]
  unfold mkKeysE
  rw [h1, bindE_ok, h2, bindE_ok]
  apply mapM_except_ok
  intro r hr
  obtain ⟨av, hav⟩ := Option.isSome_iff_exists.mp (hcells r hr).1
  obtain ⟨ev, hev⟩ := Option.isSome_iff_exists.mp (hcells r hr).2
  rw [hav, hev]
  exact ⟨_, rfl⟩

theorem mkKeysE_err_of_missing (f : Frame)
    (h : "netAddress" ∉ f.cols ∨ "fwNetEnv" ∉ f.cols) :
    ∃ e, mkKeysE f = Except.error e := by
  rcases h with h | h
  · exact ⟨"KeyError: " ++ "netAddress",
      by unfold mkKeysE; rw [idxE_err_of_not_mem f _ h, bindE_err]⟩
  · cases hia : idxE f "netAddress" with
    | error e =>
      refine ⟨e, ?_⟩
      unfold mkKeysE
      rw [hia, bindE_err]
    | ok ia =>
      exact ⟨"KeyError: " ++ "fwNetEnv",
        by unfold mkKeysE; rw [hia, bindE_ok, idxE_err_of_not_mem f _ h, bindE_err]⟩

theorem setCol_mem (f : Frame) (c : String) (vals : List Cell) (x : String)
    (h : x ∈ f.cols) : x ∈ (setCol f c vals).cols := by
  unfold setCol
  cases colIdx f c
  · exact List.mem_append_left _ h
  · exact h

theorem setColMasked_mem (f : Frame) (c : String) (mask : List Bool) (v : Cell) (x : String)
    (h : x ∈ f.cols) : x ∈ (setColMasked f c mask v).cols := by
  unfold setColMasked
  cases colIdx f c
  · exact List.mem_append_left _ h
  · exact h

theorem concatF_mem_left (a b : Frame) (x : String) (h : x ∈ a.cols) :
    x ∈ (concatF a b).cols := by
  unfold concatF
  exact List.mem_append_left _ h

theorem deltasCombined_mem (pf cf : Frame) (t : String) (kp kc : List String) (c : String)
    (h : c ∈ pf.cols) : c ∈ (deltasCombined pf cf t kp kc).cols := by
  unfold deltasCombined
  exact concatF_mem_left _ _ _ (setColMasked_mem _ _ _ _ _ (setCol_mem _ _ _ _ h))

/-- The masked assignment targets its own column, so the column is present
afterwards whether or not it existed before (pandas creates it). -/
theorem setColMasked_mem_self (f : Frame) (c : String) (mask : List Bool) (v : Cell) :
    c ∈ (setColMasked f c mask v).cols := by
  unfold setColMasked
  cases hci : colIdx f c with
  | none => exact List.mem_append_right _ (List.mem_cons_self _ _)
  | some i =>
    refine (colIdxL_isSome_iff f.cols c).mp ?_
    unfold colIdx at hci
    rw [hci]
    rfl

/-- Line 47's `.loc` assignment guarantees the combined frame has the
`fwNetDropped` column even when the previous snapshot lacked it. -/
theorem deltasCombined_mem_dropped (pf cf : Frame) (t : String) (kp kc : List String) :
    "fwNetDropped" ∈ (deltasCombined pf cf t kp kc).cols := by
  unfold deltasCombined
  exact concatF_mem_left _ _ _ (setColMasked_mem_self _ _ _ _)

theorem updValsE_ok (f : Frame) (t : String)
    (h1 : "fwNetDropped" ∈ f.cols) (h2 : "netUpdDate" ∈ f.cols) :
    ∃ vs, updValsE f t = Except.ok vs := by
  apply mapM_except_ok
  intro r _
  obtain ⟨i, hi⟩ := idxE_ok_of_mem f _ h1
  rw [hi, bindE_ok]
  by_cases hc : cellAt r i = some "YES"
  · rw [if_pos hc]
    obtain ⟨j, hj⟩ := idxE_ok_of_mem f _ h2
    rw [hj, bindE_ok]
    exact ⟨_, rfl⟩
  · rw [if_neg hc]
    exact ⟨_, rfl⟩

theorem getColE_ok (f : Frame) (c : String) (h : c ∈ f.cols) :
    ∃ l, getColE f c = Except.ok l := by
  obtain ⟨i, hi⟩ := Option.isSome_iff_exists.mp ((colIdxL_isSome_iff f.cols c).mpr h)
  exact ⟨f.rows.map (fun r => cellAt r i), by unfold getColE colIdx; rw [hi]⟩

/-- **C4 (amended)** Reconciliation fails whenever either snapshot lacks a
required key column (`netAddress`, `fwNetEnv`); and it succeeds whenever
both snapshots have those columns with no `NaN` key cells and the
previous snapshot additionally has the `netUpdDate` column the merge step
reads (`fwNetDropped` need not pre-exist: line 47's assignment creates
it). -/
theorem C4_required_columns_amended :
    (∀ pf cf : Frame, ∀ t : String,
      ("netAddress" ∉ pf.cols ∨ "fwNetEnv" ∉ pf.cols ∨
       "netAddress" ∉ cf.cols ∨ "fwNetEnv" ∉ cf.cols) →
      (calculate_deltas_frame pf cf t).isOk = false)
  ∧ (∀ pf cf : Frame, ∀ t : String, keyCellsOk pf → keyCellsOk cf →
      "netUpdDate" ∈ pf.cols →
      (calculate_deltas_frame pf cf t).isOk = true) := by
  constructor
  · intro pf cf t hmiss
    unfold calculate_deltas_frame
    rcases hmiss with h | h | h | h
    · obtain ⟨e, he⟩ := mkKeysE_err_of_missing pf (Or.inl h)
      rw [he, bindE_err]
      rfl
    · obtain ⟨e, he⟩ := mkKeysE_err_of_missing pf (Or.inr h)
      rw [he, bindE_err]
      rfl
    · cases hkp : mkKeysE pf with
      | error e =>
        rw [bindE_err]
        rfl
      | ok kp =>
        obtain ⟨e, he⟩ := mkKeysE_err_of_missing cf (Or.inl h)
        rw [bindE_ok, he, bindE_err]
        rfl
    · cases hkp : mkKeysE pf with
      | error e =>
        rw [bindE_err]
        rfl
      | ok kp =>
        obtain ⟨e, he⟩ := mkKeysE_err_of_missing cf (Or.inr h)
        rw [bindE_ok, he, bindE_err]
        rfl
  · intro pf cf t hpf hcf hupd
    obtain ⟨kp, hkp⟩ := mkKeysE_ok_of pf hpf
    obtain ⟨kc, hkc⟩ := mkKeysE_ok_of cf hcf
    unfold calculate_deltas_frame
    rw [hkp, bindE_ok, hkc, bindE_ok]
    obtain ⟨vs, hvs⟩ := updValsE_ok (deltasCombined pf cf t kp kc) t
      (deltasCombined_mem_dropped pf cf t kp kc) (deltasCombined_mem pf cf t kp kc _ hupd)
    rw [hvs, bindE_ok]
    obtain ⟨dc, hdc⟩ := getColE_ok _ _
      (setCol_mem _ _ _ _ (deltasCombined_mem_dropped pf cf t kp kc))
    rw [hdc, bindE_ok]
    rfl

/-- A previous snapshot with the key columns and `fwNetDropped`, but no
`netUpdDate` column. -/
def c4Prev : Frame :=
  { cols := ["netAddress", "fwNetEnv", "fwNetDropped"]
    rows := [[some "1.2.3.4", some "prod", some "N/A"]] }

/-- An empty current snapshot with the same columns, so the previous row
is marked removed. -/
def c4Curr : Frame :=
  { cols := ["netAddress", "fwNetEnv", "fwNetDropped"], rows := [] }

/-- Counterexample to **C4** as stated: both snapshots contain the
`netAddress` and `fwNetEnv` columns, yet reconciliation still fails —
the row marked `'YES'` makes the `netUpdDate` read raise `KeyError`. -/
theorem C4_required_columns_cex :
    "netAddress" ∈ c4Prev.cols ∧ "fwNetEnv" ∈ c4Prev.cols ∧
    "netAddress" ∈ c4Curr.cols ∧ "fwNetEnv" ∈ c4Curr.cols ∧
    calculate_deltas_frame c4Prev c4Curr "2026-02-03" =
      Except.error "KeyError: netUpdDate" := by
  refine ⟨by decide, by decide, by decide, by decide, ?_⟩
  rfl

/-- A previous snapshot with all four columns the reconciler reads. -/
def w4Prev : Frame :=
  { cols := ["netAddress", "fwNetEnv", "fwNetDropped", "netUpdDate"]
    rows := [[some "1.2.3.4", some "prod", some "N/A", some "2024-05-05"]] }

/-- A previous snapshot without a `fwNetDropped` column: reconciliation
still succeeds because line 47 creates it. -/
def w4PrevB : Frame :=
  { cols := ["netAddress", "fwNetEnv", "netUpdDate"]
    rows := [[some "1.2.3.4", some "prod", some "2024-05-05"]] }

/-- A current snapshot with the two key columns. -/
def w4Curr : Frame :=
  { cols := ["netAddress", "fwNetEnv"], rows := [[some "5.6.7.8", some "prod"]] }

/-- Witness for `C4_required_columns_amended`: the well-columned pair
reconciles, so does a previous snapshot lacking `fwNetDropped`, and
dropping `fwNetEnv` from the previous snapshot fails. -/
theorem C4_required_columns_amended_witness :
    (calculate_deltas_frame w4Prev w4Curr "2026-02-03").isOk = true ∧
    (calculate_deltas_frame w4PrevB w4Curr "2026-02-03").isOk = true ∧
    (calculate_deltas_frame { cols := ["netAddress"], rows := [] } w4Curr
      "2026-02-03").isOk = false :=
  ⟨C4_required_columns_amended.2 w4Prev w4Curr "2026-02-03"
      ⟨0, 1, by decide, by decide, by decide⟩
      ⟨0, 1, by decide, by decide, by decide⟩ (by decide),
   C4_required_columns_amended.2 w4PrevB w4Curr "2026-02-03"
      ⟨0, 1, by decide, by decide, by decide⟩
      ⟨0, 1, by decide, by decide, by decide⟩ (by decide),
   C4_required_columns_amended.1 { cols := ["netAddress"], rows := [] } w4Curr "2026-02-03"
      (Or.inr (Or.inl (by decide)))⟩

end FW
